import Mathlib

/-!
Verification of the resilient-fetch / wizard core of the tiktok-automation
frontend (`src/frontend-react/src/components/ProductionStudio.tsx` and
`src/unnamed/part_000` = `src/services/api.ts`).

The TypeScript is shallowly embedded: the retry loop of `safeFetch` becomes a
fuel-indexed recursion over an abstract transport (one outcome per attempt),
the URL builders become functions on `List Char`, the render-job polling loop
becomes a recursion over a trace of poll outcomes, and the wizard state and
`ContentSettings` aggregate become plain structures.
-/

namespace TikTok

/-! ## Resilient fetch (`safeFetch`, ProductionStudio.tsx lines 31-66)

The browser transport is abstracted as a function from the attempt index to
the outcome of that single `fetch` call: either a response with an HTTP
status, or a thrown error (which carries whether it was an `AbortError`,
i.e. the timeout fired). -/

/-- Outcome of one underlying `fetch` attempt. -/
inductive AttemptOutcome where
  | resp (status : Nat)
  | thrown ( isAbort : Bool) (msg : String)
  deriving Repr, DecidableEq

/-- Result of a whole `safeFetch` call. -/
inductive FetchResult where
  /-- the `return resp` path: the response is handed back, whatever its status -/
  | ok (status : Nat)
  /-- `throw new Error('Tempo limite atingido. Tente novamente.')` -/
  | timeoutError
  /-- `throw err` — the original error is re-raised -/
  | raised (msg : String)
  /-- `throw new Error('Falha de rede inesperada')` after the loop -/
  | fallbackError
  deriving Repr, DecidableEq

/-- Line 46: `[429, 502, 503, 504].includes(resp.status)`. -/
def retryableStatus (s : Nat) : Bool :=
  [429, 502, 503, 504].contains s

/-- The `for (let attempt = 0; attempt <= retries; attempt++)` loop.
`fuel` is the number of loop iterations still allowed
(`retries + 1 - attempt`); when it reaches 0 the loop has finished without
returning and control falls through to the final
`throw new Error('Falha de rede inesperada')`.  The second component counts
the `fetch` attempts actually performed. -/
def safeFetchLoop (transport : Nat → AttemptOutcome) (retries : Nat) :
    Nat → Nat → FetchResult × Nat
  | 0, attempt => (.fallbackError, attempt)
  | fuel + 1, attempt =>
    match transport attempt with
    | .resp s =>
      if retryableStatus s ∧ attempt < retries then
        safeFetchLoop transport retries fuel (attempt + 1)
      else
        (.ok s, attempt + 1)
    | .thrown isAbort msg =>
      if attempt < retries then
        safeFetchLoop transport retries fuel (attempt + 1)
      else if isAbort then (.timeoutError, attempt + 1)
      else (.raised msg, attempt + 1)

/-- `safeFetch` with a given retry budget, run against an abstract transport. -/
def safeFetch (transport : Nat → AttemptOutcome) (retries : Nat) :
    FetchResult × Nat :=
  safeFetchLoop transport retries (retries + 1) 0

/-- Line 47/56: `retryDelayBaseMs * Math.pow(2, attempt) + Math.floor(Math.random() * 250)`.
`jitter attempt` stands for the value of `Math.floor(Math.random() * 250)`
drawn before retrying attempt `attempt`. -/
def backoffWait (base : Nat) (jitter : Nat → Nat) (attempt : Nat) : Nat :=
  base * 2 ^ attempt + jitter attempt

/-- Invariant of the retry loop: as long as at least one iteration remains and
the fuel matches the loop bound (`attempt + fuel = retries + 1`), the loop
returns through one of the in-body exits, never through the post-loop
fallback. -/
theorem safeFetchLoop_ne_fallback (transport : Nat → AttemptOutcome)
    (retries : Nat) :
    ∀ fuel attempt, attempt + fuel = retries + 1 → 1 ≤ fuel →
      (safeFetchLoop transport retries fuel attempt).1 ≠ .fallbackError := by
  intro fuel
  induction fuel with
  | zero => intro attempt _ h1; omega
  | succ k ih =>
    intro attempt hsum _
    rw [safeFetchLoop]
    cases htr : transport attempt with
    | resp s =>
      by_cases hc : retryableStatus s ∧ attempt < retries
      · have hk1 : 1 ≤ k := by omega
        simpa [hc] using ih (attempt + 1) (by omega) hk1
      · simp [hc]
    | thrown isAbort msg =>
      by_cases hc : attempt < retries
      · have hk1 : 1 ≤ k := by omega
        simpa [hc] using ih (attempt + 1) (by omega) hk1
      · by_cases hab : isAbort <;> simp [hc, hab]

/-- C1: against a transport answering HTTP 503 on every attempt, `safeFetch`
with `retries = 2` performs exactly 3 attempts and then returns the final
failed response (status 503) instead of retrying further. -/
theorem safeFetch_retry_bound_503 (transport : Nat → AttemptOutcome)
    (h : ∀ n, transport n = .resp 503) :
    safeFetch transport 2 = (.ok 503, 3) := by
  rw [show transport = fun _ => AttemptOutcome.resp 503 from funext h]
  rfl

/-- Witness for C1 at the concrete always-503 transport. -/
theorem safeFetch_retry_bound_503_witness :
    safeFetch (fun _ => .resp 503) 2 = (.ok 503, 3) :=
  safeFetch_retry_bound_503 (fun _ => .resp 503) (fun _ => rfl)

/-- C8: a first-attempt response whose status is outside the retry set
{429, 502, 503, 504} is returned as-is after exactly 1 attempt, for any retry
budget. -/
theorem safeFetch_no_retry_nonretryable (transport : Nat → AttemptOutcome)
    (retries s : Nat) (h0 : transport 0 = .resp s)
    (hs : retryableStatus s = false) :
    safeFetch transport retries = (.ok s, 1) := by
  unfold safeFetch
  rw [safeFetchLoop, h0]
  simp [hs]

/-- Witness for C8: a 200 response on the first attempt with `retries = 2`. -/
theorem safeFetch_no_retry_nonretryable_witness :
    safeFetch (fun _ => .resp 200) 2 = (.ok 200, 1) :=
  safeFetch_no_retry_nonretryable (fun _ => .resp 200) 2 200 rfl rfl

/-- C5: when every attempt up to the budget throws, `safeFetch` raises the
distinguished timeout error if the final failure was an abort, and re-raises
the final underlying error otherwise; the earlier (retried) failures are not
surfaced. -/
theorem safeFetch_exhaustion (transport : Nat → AttemptOutcome)
    (retries : Nat) (ab : Bool) (m : String)
    (hfail : ∀ n, n < retries → ∃ a msg, transport n = .thrown a msg)
    (hlast : transport retries = .thrown ab m) :
    safeFetch transport retries =
      ((if ab then FetchResult.timeoutError else .raised m), retries + 1) := by
  have key : ∀ fuel attempt, attempt + fuel = retries + 1 → 1 ≤ fuel →
      safeFetchLoop transport retries fuel attempt =
        ((if ab then FetchResult.timeoutError else .raised m), retries + 1) := by
    intro fuel
    induction fuel with
    | zero => intro attempt _ h1; omega
    | succ k ih =>
      intro attempt hsum _
      by_cases hat : attempt < retries
      · obtain ⟨a, msg, htr⟩ := hfail attempt hat
        rw [safeFetchLoop, htr]
        have hk1 : 1 ≤ k := by omega
        simpa [hat] using ih (attempt + 1) (by omega) hk1
      · have ha : attempt = retries := by omega
        subst ha
        rw [safeFetchLoop, hlast]
        cases ab <;> simp
  exact key (retries + 1) 0 (by omega) (by omega)

/-- Witness for C5: with `retries = 1`, a network error on attempt 0 and an
abort on the final attempt 1, the call raises the timeout error. -/
theorem safeFetch_exhaustion_witness :
    safeFetch (fun n => .thrown (n == 1) "boom") 1 = (.timeoutError, 2) :=
  safeFetch_exhaustion (fun n => .thrown (n == 1) "boom") 1 true "boom"
    (fun n _ => ⟨n == 1, "boom", rfl⟩) rfl

/-- C10: the post-loop `throw new Error('Falha de rede inesperada')` is
unreachable: for every transport and retry budget the loop body itself
returns a response or throws on its last iteration. -/
theorem safeFetch_fallback_unreachable (transport : Nat → AttemptOutcome)
    (retries : Nat) :
    (safeFetch transport retries).1 ≠ .fallbackError :=
  safeFetchLoop_ne_fallback transport retries (retries + 1) 0 (by omega)
    (by omega)

/-- C6: the backoff delay before retrying attempt `n` is
`base * 2 ^ n` plus a jitter below 250 ms; ignoring the jitter it is
non-decreasing in `n` and always at least `base`. -/
theorem backoffWait_spec (base : Nat) (jitter : Nat → Nat) (n : Nat)
    (hj : ∀ k, jitter k < 250) :
    (∃ j, j < 250 ∧ backoffWait base jitter n = base * 2 ^ n + j)
    ∧ base * 2 ^ n ≤ base * 2 ^ (n + 1)
    ∧ base ≤ base * 2 ^ n := by
  refine ⟨⟨jitter n, hj n, rfl⟩, ?_, ?_⟩
  · exact Nat.mul_le_mul_left _ (Nat.pow_le_pow_right (by norm_num) (by omega))
  · calc base = base * 1 := (Nat.mul_one base).symm
      _ ≤ base * 2 ^ n := Nat.mul_le_mul_left _ Nat.one_le_two_pow

/-- Witness for C6 at `base = 800`, zero jitter, `n = 1`. -/
theorem backoffWait_spec_witness :
    (∃ j, j < 250 ∧ backoffWait 800 (fun _ => 0) 1 = 800 * 2 ^ 1 + j)
    ∧ 800 * 2 ^ 1 ≤ 800 * 2 ^ (1 + 1)
    ∧ 800 ≤ 800 * 2 ^ 1 :=
  backoffWait_spec 800 (fun _ => 0) 1 (fun _ => by norm_num)

/-! ## URL builders (`buildApiUrl`, ProductionStudio.tsx lines 71-78, and
`ApiService`, api.ts lines 47-59)

Strings are modelled as `List Char`.  `API_BASE_URL` is a build-time
configuration constant (`process.env.REACT_APP_API_URL || ...`), so it is a
parameter of the embedded functions. -/

/-- The API prefix `'/api'`. -/
def slashApi : List Char := ['/', 'a', 'p', 'i']

/-- The characters of `'api'` (the prefix without its separator). -/
def apiChars : List Char := ['a', 'p', 'i']

/-- A doubled slash `'//'`. -/
def dblSlash : List Char := ['/', '/']

/-- The scheme-and-separator prefix `'https://'` of a base origin. -/
def httpsScheme : List Char := ['h', 't', 't', 'p', 's', ':', '/', '/']

/-- Lines 71-78:
`endpoint.startsWith('/') ? endpoint : '/'+endpoint`, then
`API_BASE_URL.endsWith('/api') ? base+finalEndpoint : base+'/api'+finalEndpoint`. -/
def buildApiUrl (base endpoint : List Char) : List Char :=
  let finalEndpoint :=
    if List.isPrefixOf ['/'] endpoint then endpoint else '/' :: endpoint
  if List.isSuffixOf slashApi base then base ++ finalEndpoint
  else base ++ slashApi ++ finalEndpoint

/-- api.ts line 50, the constructor's normalization:
`API_BASE_URL.endsWith('/') ? API_BASE_URL.slice(0, -1) : API_BASE_URL`. -/
def apiServiceBase (raw : List Char) : List Char :=
  if List.isSuffixOf ['/'] raw then raw.dropLast else raw

/-- `ApiService.request`'s URL computation (api.ts lines 55-59): its
expression is character-for-character the one of `buildApiUrl`, applied to
the constructor-normalized base. -/
def apiServiceRequestUrl (raw endpoint : List Char) : List Char :=
  buildApiUrl (apiServiceBase raw) endpoint

/-- Number of (possibly overlapping) occurrences of `pat` in `s`. -/
def countSub (pat : List Char) : List Char → Nat
  | [] => 0
  | c :: rest =>
    (if List.isPrefixOf pat (c :: rest) then 1 else 0) + countSub pat rest

/-- C2 counterexample: `buildApiUrl` does not normalize a trailing slash of
the base.  With base `'https://x.com/'` (a trailing slash, allowed by the
claim) the produced URL `'https://x.com//api/foo'` has a doubled slash
beyond the scheme's, and with base `'https://x.com/api/'` the produced URL
`'https://x.com/api//api/foo'` contains the API prefix twice. -/
theorem buildApiUrl_counterexample :
    buildApiUrl "https://x.com/".toList "foo".toList
        = "https://x.com//api/foo".toList
    ∧ countSub dblSlash "https://x.com//api/foo".toList = 2
    ∧ buildApiUrl "https://x.com/api/".toList "foo".toList
        = "https://x.com/api//api/foo".toList
    ∧ countSub slashApi "https://x.com/api//api/foo".toList = 2 := by
  refine ⟨?_, ?_, ?_, ?_⟩ <;> decide

/-- A pattern starting with a character that does not occur in `s` has no
occurrence in `s`. -/
theorem countSub_eq_zero (h : Char) (t : List Char) :
    ∀ s : List Char, h ∉ s → countSub (h :: t) s = 0 := by
  intro s
  induction s with
  | nil => intro _; rfl
  | cons c rest ih =>
    intro hs
    have hc : h ≠ c := fun e => hs (by rw [e]; exact List.mem_cons_self c rest)
    have hr : h ∉ rest := fun e => hs (List.mem_cons_of_mem c e)
    simp [countSub, List.isPrefixOf_cons₂, beq_eq_false_iff_ne.mpr hc, ih hr]

/-- `'api'` is no prefix of `host ++ '/' :: rest` when it is no prefix of
`host`: the slash blocks any occurrence crossing the boundary. -/
theorem api_not_prefix_append (host rest : List Char)
    (hapi : ¬ apiChars <+: host) : ¬ apiChars <+: (host ++ '/' :: rest) := by
  intro hcon
  rcases host with _ | ⟨c1, _ | ⟨c2, _ | ⟨c3, hh⟩⟩⟩
  · simp [apiChars, List.cons_prefix_cons] at hcon
  · simp [apiChars, List.cons_prefix_cons] at hcon
  · simp [apiChars, List.cons_prefix_cons] at hcon
  · refine hapi ?_
    simp only [apiChars, List.cons_append, List.cons_prefix_cons] at hcon ⊢
    exact ⟨hcon.1, hcon.2.1, hcon.2.2.1, List.nil_prefix⟩

/-- The segment `host ++ '/api/' ++ ep` contains the API prefix exactly
once, at the junction, when neither side can supply another occurrence: the
host is slash-free and the endpoint (which may contain slashes of its own)
contains no `'/api'` and does not begin with `'api'`. -/
theorem countSub_slashApi_core (ep : List Char)
    (h0 : countSub ['/', 'a', 'p', 'i'] ep = 0)
    (hepApi : ¬ apiChars <+: ep) :
    ∀ host : List Char, '/' ∉ host →
      countSub ['/', 'a', 'p', 'i']
        (host ++ '/' :: 'a' :: 'p' :: 'i' :: '/' :: ep) = 1 := by
  intro host
  induction host with
  | nil =>
    intro _
    have hepApi' : ¬ ['a', 'p', 'i'] <+: ep := hepApi
    simpa [countSub, List.isPrefixOf_cons₂, hepApi'] using h0
  | cons c host' ih =>
    intro hs
    have hc : ('/' : Char) ≠ c :=
      fun e => hs (by rw [e]; exact List.mem_cons_self c host')
    have hh : ('/' : Char) ∉ host' := fun e => hs (List.mem_cons_of_mem c e)
    simp [countSub, List.isPrefixOf_cons₂, beq_eq_false_iff_ne.mpr hc, ih hh]

/-- The segment `host ++ '/api/' ++ ep` contains no doubled slash when the
host is slash-free and the endpoint neither contains one nor begins with a
slash. -/
theorem countSub_dblSlash_core (ep : List Char)
    (h0 : countSub ['/', '/'] ep = 0) (hepLead : ¬ ['/'] <+: ep) :
    ∀ host : List Char, '/' ∉ host →
      countSub ['/', '/']
        (host ++ '/' :: 'a' :: 'p' :: 'i' :: '/' :: ep) = 0 := by
  intro host
  induction host with
  | nil =>
    intro _
    have hsl : List.isPrefixOf ['/'] ep = false := by
      rw [Bool.eq_false_iff]
      intro hb
      exact hepLead (List.isPrefixOf_iff_prefix.mp hb)
    simpa [countSub, List.isPrefixOf_cons₂, hsl] using h0
  | cons c host' ih =>
    intro hs
    have hc : ('/' : Char) ≠ c :=
      fun e => hs (by rw [e]; exact List.mem_cons_self c host')
    have hh : ('/' : Char) ∉ host' := fun e => hs (List.mem_cons_of_mem c e)
    simp [countSub, List.isPrefixOf_cons₂, beq_eq_false_iff_ne.mpr hc, ih hh]

/-- A scheme-plus-host base with a slash-free host not beginning with
`'api'` does not end with the API prefix. -/
theorem slashApi_not_suffix (host : List Char) (hhostSlash : '/' ∉ host)
    (hhostApi : ¬ apiChars <+: host) :
    List.isSuffixOf slashApi (httpsScheme ++ host) = false := by
  rw [Bool.eq_false_iff]
  intro hb
  have h1 : slashApi <:+ httpsScheme ++ host := List.isSuffixOf_iff_suffix.mp hb
  rw [← List.reverse_prefix, List.reverse_append] at h1
  have e1 : slashApi.reverse = ['i', 'p', 'a', '/'] := rfl
  have e2 : httpsScheme.reverse = ['/', '/', ':', 's', 'p', 't', 't', 'h'] := rfl
  rw [e1, e2] at h1
  obtain ⟨r, hr⟩ : ∃ r, host.reverse = r := ⟨_, rfl⟩
  rw [hr] at h1
  have hmem : ∀ c ∈ r, c ≠ '/' := by
    intro c hc hcv
    rw [← hr] at hc
    exact hhostSlash (by rw [← hcv]; exact List.mem_reverse.mp hc)
  rcases r with _ | ⟨c1, _ | ⟨c2, _ | ⟨c3, _ | ⟨c4, rr⟩⟩⟩⟩
  · simp [List.cons_prefix_cons] at h1
  · simp [List.cons_prefix_cons] at h1
  · simp [List.cons_prefix_cons] at h1
  · simp only [List.cons_append, List.nil_append, List.cons_prefix_cons] at h1
    obtain ⟨hc1, hc2, hc3, -⟩ := h1
    subst hc1; subst hc2; subst hc3
    have hh : host = ['a', 'p', 'i'] := by
      rw [← List.reverse_reverse host, hr]; rfl
    exact hhostApi (by rw [hh]; exact List.prefix_refl _)
  · simp only [List.cons_append, List.cons_prefix_cons] at h1
    exact hmem c4 (by simp) h1.2.2.2.1.symm

/-- The constructor's normalization strips a single trailing slash. -/
theorem apiServiceBase_strip (X : List Char) :
    apiServiceBase (X ++ ['/']) = X := by
  simp [apiServiceBase]

/-- The constructor's normalization keeps a base whose last character is not
a slash (stated via the head of the reversed base). -/
theorem apiServiceBase_keep (X : List Char) (c : Char) (r : List Char)
    (hrev : X.reverse = c :: r) (hc : c ≠ '/') : apiServiceBase X = X := by
  simp [apiServiceBase, List.isSuffixOf, hrev, List.isPrefixOf_cons₂,
    beq_eq_false_iff_ne.mpr (Ne.symm hc)]

/-- The produced URL contains the API prefix exactly once. -/
theorem countSub_slashApi_url (host ep : List Char)
    (hhostSlash : '/' ∉ host) (hhostApi : ¬ apiChars <+: host)
    (hepSub : countSub slashApi ep = 0) (hepApi : ¬ apiChars <+: ep) :
    countSub slashApi (httpsScheme ++ host ++ slashApi ++ '/' :: ep) = 1 := by
  have hmid : ¬ ['a', 'p', 'i'] <+:
      (host ++ '/' :: 'a' :: 'p' :: 'i' :: '/' :: ep) :=
    api_not_prefix_append host _ hhostApi
  have hcore := countSub_slashApi_core ep hepSub hepApi host hhostSlash
  have hnorm : httpsScheme ++ host ++ slashApi ++ '/' :: ep
      = 'h' :: 't' :: 't' :: 'p' :: 's' :: ':' :: '/' :: '/' ::
        (host ++ '/' :: 'a' :: 'p' :: 'i' :: '/' :: ep) := by
    simp [httpsScheme, slashApi, List.append_assoc]
  rw [hnorm]
  simp [slashApi, countSub, List.isPrefixOf_cons₂, hmid, hcore]

/-- The produced URL contains exactly one doubled slash: the one inside the
scheme separator `'https://'`. -/
theorem countSub_dblSlash_url (host ep : List Char)
    (hhostNe : host ≠ []) (hhostSlash : '/' ∉ host)
    (hepDbl : countSub dblSlash ep = 0) (hepLead : ¬ ['/'] <+: ep) :
    countSub dblSlash (httpsScheme ++ host ++ slashApi ++ '/' :: ep) = 1 := by
  obtain ⟨h0, host', rfl⟩ : ∃ c t, host = c :: t := by
    cases host with
    | nil => exact absurd rfl hhostNe
    | cons c t => exact ⟨c, t, rfl⟩
  have hc : ('/' : Char) ≠ h0 :=
    fun e => hhostSlash (by rw [e]; exact List.mem_cons_self _ _)
  have hh' : ('/' : Char) ∉ host' :=
    fun e => hhostSlash (List.mem_cons_of_mem _ e)
  have hcore := countSub_dblSlash_core ep hepDbl hepLead host' hh'
  have hnorm : httpsScheme ++ (h0 :: host') ++ slashApi ++ '/' :: ep
      = 'h' :: 't' :: 't' :: 'p' :: 's' :: ':' :: '/' :: '/' :: h0 ::
        (host' ++ '/' :: 'a' :: 'p' :: 'i' :: '/' :: ep) := by
    simp [httpsScheme, slashApi, List.append_assoc]
  rw [hnorm]
  simp [dblSlash, countSub, List.isPrefixOf_cons₂,
    beq_eq_false_iff_ne.mpr hc, hcore]

/-- The part of the produced URL after the scheme has no doubled slash. -/
theorem countSub_dblSlash_tail (host ep : List Char)
    (hhostSlash : '/' ∉ host)
    (hepDbl : countSub dblSlash ep = 0) (hepLead : ¬ ['/'] <+: ep) :
    countSub dblSlash (host ++ slashApi ++ '/' :: ep) = 0 := by
  have hcore := countSub_dblSlash_core ep hepDbl hepLead host hhostSlash
  have hnorm : host ++ slashApi ++ '/' :: ep
      = host ++ '/' :: 'a' :: 'p' :: 'i' :: '/' :: ep := by
    simp [slashApi]
  rw [hnorm, show dblSlash = ['/', '/'] from rfl]
  exact hcore

/-- `buildApiUrl` on a well-formed base (no trailing slash) and endpoint:
the result is `scheme ++ host ++ '/api' ++ '/' ++ ep` whether or not the
base already carries the API suffix and whether or not the endpoint carries
a leading slash. -/
theorem buildApiUrl_normal (host ep : List Char) (hasApi lead : Bool)
    (hhostSlash : '/' ∉ host) (hhostApi : ¬ apiChars <+: host)
    (hepLead : ¬ ['/'] <+: ep) :
    buildApiUrl (httpsScheme ++ host ++ (if hasApi then slashApi else []))
        ((if lead then ['/'] else []) ++ ep)
      = httpsScheme ++ host ++ slashApi ++ '/' :: ep := by
  cases hasApi with
  | true =>
    have hsuf : slashApi <:+ httpsScheme ++ (host ++ slashApi) := by
      rw [← List.append_assoc]
      exact List.suffix_append _ _
    cases lead <;>
      simp [buildApiUrl, hsuf, List.isPrefixOf_cons₂, hepLead]
  | false =>
    have hsuf : ¬ slashApi <:+ httpsScheme ++ host := by
      rw [← List.isSuffixOf_iff_suffix]
      simp [slashApi_not_suffix host hhostSlash hhostApi]
    cases lead <;>
      simp [buildApiUrl, hsuf, List.isPrefixOf_cons₂, hepLead]

/-- `ApiService.request` additionally tolerates a single trailing slash on
the configured base (its constructor strips it) and then behaves exactly as
`buildApiUrl`. -/
theorem apiServiceRequestUrl_normal (host ep : List Char)
    (hasApi tslash lead : Bool)
    (hhostNe : host ≠ []) (hhostSlash : '/' ∉ host)
    (hhostApi : ¬ apiChars <+: host)
    (hepLead : ¬ ['/'] <+: ep) :
    apiServiceRequestUrl
        (httpsScheme ++ host ++ (if hasApi then slashApi else [])
          ++ (if tslash then ['/'] else []))
        ((if lead then ['/'] else []) ++ ep)
      = httpsScheme ++ host ++ slashApi ++ '/' :: ep := by
  have hbase : apiServiceBase
      (httpsScheme ++ host ++ (if hasApi then slashApi else [])
        ++ (if tslash then ['/'] else []))
      = httpsScheme ++ host ++ (if hasApi then slashApi else []) := by
    cases tslash with
    | true =>
      have h := apiServiceBase_strip
        (httpsScheme ++ host ++ (if hasApi then slashApi else []))
      simpa using h
    | false =>
      cases hasApi with
      | true =>
        have hrev : (httpsScheme ++ host ++ slashApi).reverse
            = 'i' :: ('p' :: 'a' :: '/' :: (httpsScheme ++ host).reverse) := by
          rw [List.reverse_append]
          rfl
        simpa using apiServiceBase_keep _ _ _ hrev (by decide)
      | false =>
        rcases hrv : host.reverse with _ | ⟨c, r⟩
        · exact absurd (List.reverse_eq_nil_iff.mp hrv) hhostNe
        · have hcmem : c ∈ host :=
            List.mem_reverse.mp (by rw [hrv]; exact List.mem_cons_self _ _)
          have hcne : c ≠ '/' := fun e => hhostSlash (e ▸ hcmem)
          have hrev : (httpsScheme ++ host).reverse
              = c :: (r ++ httpsScheme.reverse) := by
            rw [List.reverse_append, hrv]
            rfl
          simpa using apiServiceBase_keep _ _ _ hrev hcne
  unfold apiServiceRequestUrl
  rw [hbase]
  exact buildApiUrl_normal host ep hasApi lead hhostSlash hhostApi hepLead

/-- C2 (amended): for every base origin `https://host` with a slash-free
host that does not begin with `'api'` and carries **no trailing slash**
(with or without the `'/api'` suffix), and every non-empty endpoint (with or
without a leading slash, and possibly containing further path segments and
query text) whose own text does not begin with a slash or with `'api'` and
contains neither a doubled slash nor an occurrence of the API prefix
`'/api'`, `buildApiUrl` yields `https://host/api/endpoint`: the API prefix
occurs exactly once, the part after the scheme has no doubled slash (the
full URL's only `'//'` being the scheme separator), and a base already
ending in the API prefix does not get it appended again.
`ApiService.request` additionally tolerates a single trailing slash on the
base.  (The original claim is false for `buildApiUrl` with a trailing-slash
base, see the counterexample.) -/
theorem url_builder_amended (host ep : List Char) (hasApi tslash lead : Bool)
    (hhostNe : host ≠ []) (hhostSlash : '/' ∉ host)
    (hhostApi : ¬ apiChars <+: host)
    (hepNe : ep ≠ []) (hepLead : ¬ ['/'] <+: ep)
    (hepApi : ¬ apiChars <+: ep)
    (hepSub : countSub slashApi ep = 0)
    (hepDbl : countSub dblSlash ep = 0) :
    buildApiUrl (httpsScheme ++ host ++ (if hasApi then slashApi else []))
        ((if lead then ['/'] else []) ++ ep)
      = httpsScheme ++ host ++ slashApi ++ '/' :: ep
    ∧ apiServiceRequestUrl
        (httpsScheme ++ host ++ (if hasApi then slashApi else [])
          ++ (if tslash then ['/'] else []))
        ((if lead then ['/'] else []) ++ ep)
      = httpsScheme ++ host ++ slashApi ++ '/' :: ep
    ∧ countSub slashApi (httpsScheme ++ host ++ slashApi ++ '/' :: ep) = 1
    ∧ countSub dblSlash (host ++ slashApi ++ '/' :: ep) = 0
    ∧ countSub dblSlash (httpsScheme ++ host ++ slashApi ++ '/' :: ep) = 1 :=
  ⟨buildApiUrl_normal host ep hasApi lead hhostSlash hhostApi hepLead,
   apiServiceRequestUrl_normal host ep hasApi tslash lead hhostNe hhostSlash
     hhostApi hepLead,
   countSub_slashApi_url host ep hhostSlash hhostApi hepSub hepApi,
   countSub_dblSlash_tail host ep hhostSlash hepDbl hepLead,
   countSub_dblSlash_url host ep hhostNe hhostSlash hepDbl hepLead⟩

/-- Witness for the amended C2 at host `x.com` and the component's real
multi-segment endpoint `production/generate-script`, with a base that
already ends in `/api` plus a trailing slash and no leading slash on the
endpoint. -/
theorem url_builder_amended_witness :
    buildApiUrl (httpsScheme ++ "x.com".toList ++ (if true then slashApi else []))
        ((if false then ['/'] else []) ++ "production/generate-script".toList)
      = httpsScheme ++ "x.com".toList ++ slashApi
          ++ '/' :: "production/generate-script".toList
    ∧ apiServiceRequestUrl
        (httpsScheme ++ "x.com".toList ++ (if true then slashApi else [])
          ++ (if true then ['/'] else []))
        ((if false then ['/'] else []) ++ "production/generate-script".toList)
      = httpsScheme ++ "x.com".toList ++ slashApi
          ++ '/' :: "production/generate-script".toList
    ∧ countSub slashApi
        (httpsScheme ++ "x.com".toList ++ slashApi
          ++ '/' :: "production/generate-script".toList) = 1
    ∧ countSub dblSlash
        ("x.com".toList ++ slashApi
          ++ '/' :: "production/generate-script".toList) = 0
    ∧ countSub dblSlash
        (httpsScheme ++ "x.com".toList ++ slashApi
          ++ '/' :: "production/generate-script".toList) = 1 :=
  url_builder_amended "x.com".toList "production/generate-script".toList
    true true false (by decide) (by decide) (by decide) (by decide)
    (by decide) (by decide) (by decide) (by decide)

/-! ## Render-job polling loop (ProductionStudio.tsx lines 1516-1541)

The loop repeatedly calls `safeFetch` on the job-status endpoint.  Each
iteration is abstracted as a `PollStep`: the wall-clock milliseconds the
status check itself took (on top of the fixed 1.5 s sleep) and the observed
outcome of the check.  An outcome is either a thrown error (from `safeFetch`
after its internal retry, or from body parsing — there is no `try/catch`
inside the loop, so it propagates), a non-ok response (line 1529:
`if (!statusResp.ok) continue;`), or a parsed status body. -/

/-- Observed outcome of one status check inside the polling loop. -/
inductive PollOutcome where
  | thrownErr (msg : String)
  | notOk
  | data (status : Option String) (progress : Option Nat)
      (video_url : Option String) (error : Option String)
  deriving Repr, DecidableEq

/-- One iteration of the polling loop. -/
structure PollStep where
  fetchMs : Nat
  outcome : PollOutcome
  deriving Repr, DecidableEq

/-- How the polling loop ends. -/
inductive PollResult where
  /-- line 1525: `'Tempo máximo de renderização excedido. Tente novamente.'` -/
  | timedOut
  /-- an exception from the status check propagated out of the loop -/
  | aborted (msg : String)
  /-- line 1534-1536: `status === 'completed' && video_url` -/
  | completed (url : String)
  /-- line 1538: `statusData?.error || 'Falha na renderização'` -/
  | failedJob (msg : String)
  deriving Repr, DecidableEq

/-- JS truthiness of an optional string (`undefined` and `''` are falsy). -/
def truthyStr (o : Option String) : Bool :=
  o.getD "" != ""

/-- JS `o || d` for an optional string. -/
def jsOrStr (o : Option String) (d : String) : String :=
  match o with
  | some e => if e = "" then d else e
  | none => d

/-- Line 1524: the hard polling ceiling, `20 * 60 * 1000` ms. -/
def pollCeilingMs : Nat := 20 * 60 * 1000

/-- Line 1527: the fixed sleep between polls, 1500 ms. -/
def pollIntervalMs : Nat := 1500

/-- The `while (!finished)` loop, lines 1522-1540, over a trace of poll
steps.  `elapsed` is `Date.now() - started` at the top of the iteration; the
ceiling is checked before sleeping and polling.  `none` means the trace was
consumed with the loop still running. -/
def pollLoop (ceiling : Nat) : Nat → List PollStep → Option PollResult
  | elapsed, [] => if elapsed > ceiling then some .timedOut else none
  | elapsed, s :: rest =>
    if elapsed > ceiling then some .timedOut
    else
      match s.outcome with
      | .thrownErr m => some (.aborted m)
      | .notOk => pollLoop ceiling (elapsed + pollIntervalMs + s.fetchMs) rest
      | .data st _prog vurl err =>
        if st == some "completed" && truthyStr vurl then
          some (.completed (vurl.getD ""))
        else if st == some "failed" then
          some (.failedJob (jsOrStr err "Falha na renderização"))
        else pollLoop ceiling (elapsed + pollIntervalMs + s.fetchMs) rest

/-- `Date.now() - started` at the top of iteration `k` of the loop. -/
def pollElapsed (elapsed : Nat) : List PollStep → Nat → Nat
  | _, 0 => elapsed
  | [], _ + 1 => elapsed
  | s :: rest, k + 1 =>
    pollElapsed (elapsed + pollIntervalMs + s.fetchMs) rest k

/-- C3 counterexample: a status-check attempt that fails with a *thrown*
fetch error aborts the whole polling loop (there is no `try/catch` inside
it), even though a later poll would have reported completion; a merely
non-ok response, by contrast, is tolerated. -/
theorem pollLoop_fetch_failure_aborts :
    pollLoop pollCeilingMs 0
        [⟨0, .thrownErr "network down"⟩,
         ⟨0, .data (some "completed") none (some "v.mp4") none⟩]
      = some (.aborted "network down")
    ∧ pollLoop pollCeilingMs 0
        [⟨0, .notOk⟩,
         ⟨0, .data (some "completed") none (some "v.mp4") none⟩]
      = some (.completed "v.mp4") := by
  refine ⟨?_, ?_⟩ <;> rfl

/-- Whether a poll outcome is a thrown error. -/
def PollOutcome.isThrownErr : PollOutcome → Bool
  | .thrownErr _ => true
  | _ => false

/-- The loop reports the timeout error only when the elapsed wall clock at
the top of some iteration exceeded the ceiling. -/
theorem pollLoop_timedOut_needs_ceiling (ceiling : Nat) :
    ∀ (steps : List PollStep) (elapsed : Nat),
      pollLoop ceiling elapsed steps = some .timedOut →
      ∃ k, k ≤ steps.length ∧ ceiling < pollElapsed elapsed steps k := by
  intro steps
  induction steps with
  | nil =>
    intro elapsed h
    rw [pollLoop] at h
    by_cases hc : elapsed > ceiling
    · exact ⟨0, Nat.le_refl _, hc⟩
    · simp [hc] at h
  | cons s rest ih =>
    obtain ⟨dt, oc⟩ := s
    intro elapsed h
    rw [pollLoop] at h
    by_cases hc : elapsed > ceiling
    · exact ⟨0, by simp, hc⟩
    · rw [if_neg hc] at h
      split at h
      · simp at h
      · obtain ⟨k, hk, hlt⟩ := ih (elapsed + pollIntervalMs + dt) h
        exact ⟨k + 1, Nat.succ_le_succ hk, hlt⟩
      · split at h
        · simp at h
        · split at h
          · simp at h
          · obtain ⟨k, hk, hlt⟩ := ih (elapsed + pollIntervalMs + dt) h
            exact ⟨k + 1, Nat.succ_le_succ hk, hlt⟩

/-- Absent thrown errors, the loop can only still be running, time out at
the ceiling, or end on a terminal job status. -/
theorem pollLoop_classify (ceiling : Nat) :
    ∀ (steps : List PollStep) (elapsed : Nat),
      (∀ s ∈ steps, s.outcome.isThrownErr = false) →
      pollLoop ceiling elapsed steps = none
      ∨ pollLoop ceiling elapsed steps = some .timedOut
      ∨ (∃ u, pollLoop ceiling elapsed steps = some (.completed u))
      ∨ (∃ m, pollLoop ceiling elapsed steps = some (.failedJob m)) := by
  intro steps
  induction steps with
  | nil =>
    intro elapsed _
    rw [pollLoop]
    by_cases hc : elapsed > ceiling
    · right; left; rw [if_pos hc]
    · left; rw [if_neg hc]
  | cons s rest ih =>
    obtain ⟨dt, oc⟩ := s
    intro elapsed hno
    by_cases hc : elapsed > ceiling
    · right; left
      rw [pollLoop, if_pos hc]
    · cases oc with
      | thrownErr m =>
        have := hno ⟨dt, .thrownErr m⟩ (List.mem_cons_self _ _)
        simp [PollOutcome.isThrownErr] at this
      | notOk =>
        have h' := ih (elapsed + pollIntervalMs + dt)
          (fun s hs => hno s (List.mem_cons_of_mem _ hs))
        simpa [pollLoop, hc] using h'
      | data st pr vu er =>
        by_cases h1 : (st == some "completed" && truthyStr vu) = true
        · right; right; left
          exact ⟨vu.getD "", by simp [pollLoop, hc, h1]⟩
        · by_cases h2 : (st == some "failed") = true
          · right; right; right
            exact ⟨jsOrStr er "Falha na renderização",
              by simp [pollLoop, hc, h1, h2]⟩
          · have h' := ih (elapsed + pollIntervalMs + dt)
              (fun s hs => hno s (List.mem_cons_of_mem _ hs))
            simpa [pollLoop, hc, h1, h2] using h'

/-- C3 (amended): a status check answered with a non-ok HTTP response does
not abort the polling loop (the next iteration proceeds); the loop reports
its timeout error only once the wall-clock ceiling is exceeded at the top of
an iteration; and — provided no status check *throws* — it can only end on
the ceiling or on a terminal status (`completed` with a video URL, or
`failed`).  A thrown fetch error, however, does abort the loop (see the
counterexample), which is the one correction to the original claim. -/
theorem pollLoop_behavior (ceiling elapsed : Nat) (steps : List PollStep) :
    (∀ dt rest, elapsed ≤ ceiling →
        pollLoop ceiling elapsed (⟨dt, .notOk⟩ :: rest)
          = pollLoop ceiling (elapsed + pollIntervalMs + dt) rest)
    ∧ (pollLoop ceiling elapsed steps = some .timedOut →
        ∃ k, k ≤ steps.length ∧ ceiling < pollElapsed elapsed steps k)
    ∧ ((∀ s ∈ steps, s.outcome.isThrownErr = false) →
        pollLoop ceiling elapsed steps = none
        ∨ pollLoop ceiling elapsed steps = some .timedOut
        ∨ (∃ u, pollLoop ceiling elapsed steps = some (.completed u))
        ∨ (∃ m, pollLoop ceiling elapsed steps = some (.failedJob m))) := by
  refine ⟨?_, pollLoop_timedOut_needs_ceiling ceiling steps elapsed,
    pollLoop_classify ceiling steps elapsed⟩
  intro dt rest h
  rw [pollLoop, if_neg (by omega : ¬ elapsed > ceiling)]

/-- Witness for the amended C3: a non-ok poll at time 0 continues the loop;
a trace with a single `failed` poll ends on a terminal status; and starting
past the ceiling forces the timeout. -/
theorem pollLoop_behavior_witness :
    pollLoop pollCeilingMs 0 [⟨0, .notOk⟩]
      = pollLoop pollCeilingMs (0 + pollIntervalMs + 0) []
    ∧ (pollLoop pollCeilingMs 0
          [⟨0, .data (some "failed") none none (some "boom")⟩] = none
       ∨ pollLoop pollCeilingMs 0
          [⟨0, .data (some "failed") none none (some "boom")⟩]
          = some .timedOut
       ∨ (∃ u, pollLoop pollCeilingMs 0
          [⟨0, .data (some "failed") none none (some "boom")⟩]
          = some (.completed u))
       ∨ (∃ m, pollLoop pollCeilingMs 0
          [⟨0, .data (some "failed") none none (some "boom")⟩]
          = some (.failedJob m)))
    ∧ (∃ k, k ≤ ([] : List PollStep).length
        ∧ pollCeilingMs < pollElapsed (pollCeilingMs + 1) [] k) :=
  ⟨(pollLoop_behavior pollCeilingMs 0 []).1 0 [] (by norm_num [pollCeilingMs]),
   (pollLoop_behavior pollCeilingMs 0
      [⟨0, .data (some "failed") none none (some "boom")⟩]).2.2 (by decide),
   (pollLoop_behavior pollCeilingMs (pollCeilingMs + 1) []).2.1 (by decide)⟩

/-! ## Wizard state machine and the configuration aggregate
(ProductionStudio.tsx lines 282-453, types/index.ts, App.tsx lines 41-77) -/

/-- The subset of the `ContentSettings` aggregate (types/index.ts) that the
wizard logic and the persistence snapshot touch.  Optional TS fields are
`Option`s; `topic`, `script` and `transitions` are required (non-optional)
string fields of the interface.  `topic`, `target_platforms`,
`voice_profile` and `category` are representative fields *outside* the
persisted snapshot subset; numeric fields are rationals. -/
structure ContentSettings where
  topic : String
  script : String
  transitions : String
  visual_style : Option String
  image_provider : Option String
  visual_prompts_text : Option String
  leonardo_prompts_text : Option String
  generated_images : Option (List String)
  audio_file : Option String
  preview_audio_file : Option String
  elevenlabs_voice : Option String
  scene_duration : Option ℚ
  subtitle_style : Option String
  leonardo_motion : Option String
  motion_strength : Option ℚ
  target_platforms : Option (List String)
  voice_profile : Option String
  category : Option String
  deriving Repr, DecidableEq

/-- `currentStep` (initially 1) and the six `stepCompleted` flags
(lines 282-283). -/
structure WizardState where
  currentStep : Nat
  stepCompleted : List Bool
  deriving Repr, DecidableEq

/-- JS `stepCompleted[i]` where `i` may be negative (`stepIndex - 2` at
`stepIndex ∈ {0, 1}`): any out-of-range access yields `undefined`, which is
falsy. -/
def stepFlag (flags : List Bool) (i : Int) : Bool :=
  if i < 0 then false else flags.getD i.toNat false

/-- Lines 345-351: `goToStep` sets the current step only when
`stepIndex === 1 || stepCompleted[stepIndex - 2]`. -/
def goToStep (st : WizardState) (stepIndex : Nat) : WizardState :=
  if stepIndex == 1 || stepFlag st.stepCompleted ((stepIndex : Int) - 2) then
    { st with currentStep := stepIndex }
  else st

/-- Lines 362-365: the same guard, used to disable the stage buttons. -/
def isStepAccessible (st : WizardState) (stepIndex : Nat) : Bool :=
  stepIndex == 1 || stepFlag st.stepCompleted ((stepIndex : Int) - 2)

/-- Lines 326-335: set `stepCompleted[stepIndex - 1]` to `true` and, when
`stepIndex < 6`, advance `currentStep` to `stepIndex + 1`.  (`List.set`
matches the JS array write for the in-range indices `1 ≤ stepIndex ≤ 6`
used by the component.) -/
def completeStep (st : WizardState) (stepIndex : Nat) : WizardState :=
  let newCompleted := st.stepCompleted.set (stepIndex - 1) true
  if stepIndex < 6 then
    { currentStep := stepIndex + 1, stepCompleted := newCompleted }
  else { st with stepCompleted := newCompleted }

/-- JS `String.prototype.trim()`: strip leading and trailing whitespace. -/
def jsTrim (s : String) : String :=
  ⟨((s.toList.dropWhile Char.isWhitespace).reverse.dropWhile
      Char.isWhitespace).reverse⟩

/-- Lines 367-387: the per-stage readiness predicate, with JS truthiness
(`''`, `undefined`, `[]`-with-`length > 0` as in the source). -/
def canCompleteCurrentStep (s : ContentSettings) (currentStep : Nat) : Bool :=
  match currentStep with
  | 1 => s.script != "" && decide (50 < (jsTrim s.script).length)
  | 2 => s.script != "" && truthyStr s.audio_file
  | 3 => truthyStr s.visual_style
  | 4 => truthyStr s.subtitle_style && s.transitions != ""
  | 5 =>
    match s.target_platforms with
    | some l => decide (0 < l.length)
    | none => false
  | 6 => true
  | _ => false

/-- The "complete current stage" action as the UI exposes it: the advance
button (line 3283) calls `completeStep(currentStep)` but is disabled unless
`canCompleteCurrentStep()` holds (line 3284). -/
def tryCompleteStep (s : ContentSettings) (st : WizardState) : WizardState :=
  if canCompleteCurrentStep s st.currentStep then completeStep st st.currentStep
  else st

/-- A concrete configuration whose stage-1 predicate holds. -/
def sampleSettings : ContentSettings :=
  { topic := ""
    script := "A script long enough to pass the fifty-character stage-one gate."
    transitions := "dynamic"
    visual_style := none
    image_provider := none
    visual_prompts_text := none
    leonardo_prompts_text := none
    generated_images := none
    audio_file := none
    preview_audio_file := none
    elevenlabs_voice := none
    scene_duration := none
    subtitle_style := none
    leonardo_motion := none
    motion_strength := none
    target_platforms := none
    voice_profile := none
    category := none }

/-- C4: completing the current stage N requires the stage predicate (stage 1
a script of more than 50 trimmed characters, stage 2 a generated audio
artifact, stage 5 at least one selected platform); on success flag `N-1` is
set `true`, the other flags are untouched, and unless N is the final stage 6
the current stage advances to N+1; when the predicate fails the action is
disabled and the state unchanged. -/
theorem completeStep_spec (s : ContentSettings) (st : WizardState)
    (hge : 1 ≤ st.currentStep) (hle : st.currentStep ≤ 6)
    (hlen : st.stepCompleted.length = 6) :
    (canCompleteCurrentStep s st.currentStep = true →
      (tryCompleteStep s st).stepCompleted[st.currentStep - 1]? = some true
      ∧ (st.currentStep < 6 →
          (tryCompleteStep s st).currentStep = st.currentStep + 1)
      ∧ (st.currentStep = 6 →
          (tryCompleteStep s st).currentStep = st.currentStep)
      ∧ ∀ j, j ≠ st.currentStep - 1 →
          (tryCompleteStep s st).stepCompleted[j]? = st.stepCompleted[j]?)
    ∧ (canCompleteCurrentStep s st.currentStep = false →
        tryCompleteStep s st = st)
    ∧ (st.currentStep = 1 → canCompleteCurrentStep s st.currentStep = true →
        s.script ≠ "" ∧ 50 < (jsTrim s.script).length)
    ∧ (st.currentStep = 2 → canCompleteCurrentStep s st.currentStep = true →
        s.script ≠ "" ∧ s.audio_file.getD "" ≠ "")
    ∧ (st.currentStep = 5 → canCompleteCurrentStep s st.currentStep = true →
        ∃ l, s.target_platforms = some l ∧ 0 < l.length) := by
  refine ⟨?_, ?_, ?_, ?_, ?_⟩
  · intro hcan
    unfold tryCompleteStep
    rw [if_pos hcan]
    have hidx : st.currentStep - 1 < st.stepCompleted.length := by omega
    refine ⟨?_, ?_, ?_, ?_⟩
    · by_cases h6 : st.currentStep < 6 <;>
        simp [completeStep, h6, List.getElem?_set_self hidx]
    · intro h6
      simp [completeStep, h6]
    · intro h6
      have h6' : ¬ st.currentStep < 6 := by omega
      simp [completeStep, h6']
    · intro j hj
      by_cases h6 : st.currentStep < 6 <;>
        simp [completeStep, h6, List.getElem?_set_ne (Ne.symm hj)]
  · intro hcan
    unfold tryCompleteStep
    rw [if_neg (by simp [hcan])]
  · intro h1 hcan
    rw [h1] at hcan
    simpa [canCompleteCurrentStep] using hcan
  · intro h2 hcan
    rw [h2] at hcan
    simpa [canCompleteCurrentStep, truthyStr] using hcan
  · intro h5 hcan
    rw [h5] at hcan
    cases hpl : s.target_platforms with
    | some l =>
      rw [canCompleteCurrentStep, hpl] at hcan
      exact ⟨l, rfl, by simpa using hcan⟩
    | none =>
      rw [canCompleteCurrentStep, hpl] at hcan
      simp at hcan

/-- Witness for C4: from stage 1 with the sample script, completing sets
flag 0 and advances to stage 2. -/
theorem completeStep_spec_witness :
    (tryCompleteStep sampleSettings
        ⟨1, [false, false, false, false, false, false]⟩).stepCompleted[0]?
      = some true
    ∧ (tryCompleteStep sampleSettings
        ⟨1, [false, false, false, false, false, false]⟩).currentStep = 2 := by
  have h := completeStep_spec sampleSettings
    ⟨1, [false, false, false, false, false, false]⟩
    (by decide) (by decide) (by decide)
  have hcan : canCompleteCurrentStep sampleSettings 1 = true := by decide
  obtain ⟨hmain, -⟩ := h
  obtain ⟨hflag, hadv, -, -⟩ := hmain hcan
  exact ⟨hflag, hadv (by decide)⟩

/-- C7: navigating to stage M changes the current stage only when M is 1 or
flag `M-2` is set; otherwise the request is a no-op, and when permitted the
current stage becomes M. -/
theorem goToStep_spec (st : WizardState) (m : Nat) :
    ((goToStep st m).currentStep ≠ st.currentStep →
      (m = 1 ∨ stepFlag st.stepCompleted ((m : Int) - 2) = true))
    ∧ ((m == 1 || stepFlag st.stepCompleted ((m : Int) - 2)) = false →
        goToStep st m = st)
    ∧ ((m = 1 ∨ stepFlag st.stepCompleted ((m : Int) - 2) = true) →
        (goToStep st m).currentStep = m) := by
  refine ⟨?_, ?_, ?_⟩
  · intro hch
    by_cases hcond : (m == 1 || stepFlag st.stepCompleted ((m : Int) - 2)) = true
    · simpa using hcond
    · exfalso
      apply hch
      unfold goToStep
      rw [if_neg hcond]
  · intro hf
    unfold goToStep
    rw [if_neg (by simp [hf])]
  · intro hcond
    have hb : (m == 1 || stepFlag st.stepCompleted ((m : Int) - 2)) = true := by
      cases hcond with
      | inl h => simp [h]
      | inr h => simp [h]
    unfold goToStep
    rw [if_pos hb]

/-- Witness for C7: jumping to stage 3 with stage 2 incomplete leaves the
state unchanged, and stage 1 is always reachable. -/
theorem goToStep_spec_witness :
    goToStep ⟨1, [false, false, false, false, false, false]⟩ 3
      = ⟨1, [false, false, false, false, false, false]⟩
    ∧ (goToStep ⟨2, [true, false, false, false, false, false]⟩ 1).currentStep
      = 1 := by
  have h1 := goToStep_spec ⟨1, [false, false, false, false, false, false]⟩ 3
  have h2 := goToStep_spec ⟨2, [true, false, false, false, false, false]⟩ 1
  exact ⟨h1.2.1 (by decide), h2.2.2 (Or.inl rfl)⟩

/-! ## Snapshot persistence (ProductionStudio.tsx: persist effect lines
426-453, rehydrate effect lines 390-405) -/

/-- The per-session studio state the snapshot covers: the configuration
aggregate plus the component state `generatedImages`, `videoPreview` and
`stepCompleted`. -/
structure StudioSession where
  settings : ContentSettings
  generatedImages : List String
  videoPreview : Option String
  stepCompleted : List Bool
  deriving Repr, DecidableEq

/-- `payload.settings` (lines 428-443) after `JSON.stringify`/`JSON.parse`:
exactly the 14 listed keys.  A key whose value was `undefined` is dropped by
`JSON.stringify`, so every field is an `Option` whose `none` means "key
absent"; the required string fields `script` and `transitions` are always
present in a type-correct state. -/
structure SnapshotSettings where
  script : Option String
  visual_style : Option String
  image_provider : Option String
  visual_prompts_text : Option String
  leonardo_prompts_text : Option String
  generated_images : Option (List String)
  audio_file : Option String
  preview_audio_file : Option String
  elevenlabs_voice : Option String
  scene_duration : Option ℚ
  transitions : Option String
  subtitle_style : Option String
  leonardo_motion : Option String
  motion_strength : Option ℚ
  deriving Repr, DecidableEq

/-- The stored payload (lines 427-447): the settings subset, the generated
image list, the video preview (JSON keeps `null`), and the completion
flags. -/
structure Snapshot where
  settings : SnapshotSettings
  generatedImages : List String
  videoPreview : Option String
  stepCompleted : List Bool
  deriving Repr, DecidableEq

/-- Lines 426-453: build the payload and write it to
`localStorage['production_studio_state']` as JSON. -/
def persistSnapshot (sess : StudioSession) : Snapshot :=
  { settings :=
      { script := some sess.settings.script
        visual_style := sess.settings.visual_style
        image_provider := sess.settings.image_provider
        visual_prompts_text := sess.settings.visual_prompts_text
        leonardo_prompts_text := sess.settings.leonardo_prompts_text
        generated_images := sess.settings.generated_images
        audio_file := sess.settings.audio_file
        preview_audio_file := sess.settings.preview_audio_file
        elevenlabs_voice := sess.settings.elevenlabs_voice
        scene_duration := sess.settings.scene_duration
        transitions := some sess.settings.transitions
        subtitle_style := sess.settings.subtitle_style
        leonardo_motion := sess.settings.leonardo_motion
        motion_strength := sess.settings.motion_strength }
    generatedImages := sess.generatedImages
    videoPreview := sess.videoPreview
    stepCompleted := sess.stepCompleted }

/-- Lines 390-405: on load, merge `parsed.settings` over the fresh
`contentSettings` (`{ ...contentSettings, ...parsed.settings }`: a key
present in the snapshot overwrites, an absent key keeps the fresh value),
restore `generatedImages` and `stepCompleted` (always arrays here), and
`videoPreview` only when it is a string (a JSON `null` is not). -/
def rehydrate (fresh : StudioSession) (snap : Snapshot) : StudioSession :=
  { settings :=
      { topic := fresh.settings.topic
        script := snap.settings.script.getD fresh.settings.script
        transitions := snap.settings.transitions.getD fresh.settings.transitions
        visual_style := snap.settings.visual_style.or fresh.settings.visual_style
        image_provider :=
          snap.settings.image_provider.or fresh.settings.image_provider
        visual_prompts_text :=
          snap.settings.visual_prompts_text.or fresh.settings.visual_prompts_text
        leonardo_prompts_text :=
          snap.settings.leonardo_prompts_text.or
            fresh.settings.leonardo_prompts_text
        generated_images :=
          snap.settings.generated_images.or fresh.settings.generated_images
        audio_file := snap.settings.audio_file.or fresh.settings.audio_file
        preview_audio_file :=
          snap.settings.preview_audio_file.or fresh.settings.preview_audio_file
        elevenlabs_voice :=
          snap.settings.elevenlabs_voice.or fresh.settings.elevenlabs_voice
        scene_duration :=
          snap.settings.scene_duration.or fresh.settings.scene_duration
        subtitle_style :=
          snap.settings.subtitle_style.or fresh.settings.subtitle_style
        leonardo_motion :=
          snap.settings.leonardo_motion.or fresh.settings.leonardo_motion
        motion_strength :=
          snap.settings.motion_strength.or fresh.settings.motion_strength
        target_platforms := fresh.settings.target_platforms
        voice_profile := fresh.settings.voice_profile
        category := fresh.settings.category }
    generatedImages := snap.generatedImages
    videoPreview := snap.videoPreview.or fresh.videoPreview
    stepCompleted := snap.stepCompleted }

/-- Saving then rehydrating over a fresh session. -/
def roundTrip (fresh sess : StudioSession) : StudioSession :=
  rehydrate fresh (persistSnapshot sess)

/-- The initial `contentSettings` of a fresh session (App.tsx lines 41-77),
restricted to the modelled fields. -/
def appInitialSettings : ContentSettings :=
  { topic := ""
    script := ""
    transitions := "dynamic"
    visual_style := none
    image_provider := none
    visual_prompts_text := none
    leonardo_prompts_text := none
    generated_images := none
    audio_file := none
    preview_audio_file := none
    elevenlabs_voice := none
    scene_duration := none
    subtitle_style := some "neon_glow"
    leonardo_motion := none
    motion_strength := none
    target_platforms := some ["short"]
    voice_profile := none
    category := none }

/-- A fresh session as mounted by App.tsx and ProductionStudio. -/
def appInitialSession : StudioSession :=
  { settings := appInitialSettings
    generatedImages := []
    videoPreview := none
    stepCompleted := [false, false, false, false, false, false] }

/-- C9 counterexample: an optional persisted field that was absent in the
saved aggregate is *not* reproduced on rehydration in a fresh session — its
key is dropped by `JSON.stringify`, so the merge keeps the fresh default.
Saving a session whose `subtitle_style` is absent and rehydrating yields
`'neon_glow'` (the App.tsx initial value), not an absent field. -/
theorem snapshot_roundtrip_counterexample :
    ({ appInitialSettings with subtitle_style := none } :
        ContentSettings).subtitle_style = none
    ∧ (roundTrip appInitialSession
        { appInitialSession with
          settings :=
            { appInitialSettings with subtitle_style := none } }
       ).settings.subtitle_style = some "neon_glow" :=
  ⟨rfl, rfl⟩

/-- C9 (amended): rehydrating a saved snapshot over a fresh session restores
the required persisted fields (`script`, `transitions`), the generated-image
list, the video-preview reference (when one was set) and the completion
flags exactly; a persisted *optional* field is restored exactly when it was
present at save time and otherwise falls back to the fresh session's initial
value; and fields outside the persisted subset (topic, target platforms,
voice profile, category) take the fresh session's initial values — the old
session's values for them are lost, which is "absent" only when the fresh
default is itself absent. -/
theorem snapshot_roundtrip_amended (fresh sess : StudioSession) :
    (roundTrip fresh sess).settings.script = sess.settings.script
    ∧ (roundTrip fresh sess).settings.transitions = sess.settings.transitions
    ∧ (roundTrip fresh sess).generatedImages = sess.generatedImages
    ∧ (roundTrip fresh sess).stepCompleted = sess.stepCompleted
    ∧ (roundTrip fresh sess).videoPreview
        = sess.videoPreview.or fresh.videoPreview
    ∧ (roundTrip fresh sess).settings.visual_style
        = sess.settings.visual_style.or fresh.settings.visual_style
    ∧ (roundTrip fresh sess).settings.image_provider
        = sess.settings.image_provider.or fresh.settings.image_provider
    ∧ (roundTrip fresh sess).settings.visual_prompts_text
        = sess.settings.visual_prompts_text.or
            fresh.settings.visual_prompts_text
    ∧ (roundTrip fresh sess).settings.leonardo_prompts_text
        = sess.settings.leonardo_prompts_text.or
            fresh.settings.leonardo_prompts_text
    ∧ (roundTrip fresh sess).settings.generated_images
        = sess.settings.generated_images.or fresh.settings.generated_images
    ∧ (roundTrip fresh sess).settings.audio_file
        = sess.settings.audio_file.or fresh.settings.audio_file
    ∧ (roundTrip fresh sess).settings.preview_audio_file
        = sess.settings.preview_audio_file.or
            fresh.settings.preview_audio_file
    ∧ (roundTrip fresh sess).settings.elevenlabs_voice
        = sess.settings.elevenlabs_voice.or fresh.settings.elevenlabs_voice
    ∧ (roundTrip fresh sess).settings.scene_duration
        = sess.settings.scene_duration.or fresh.settings.scene_duration
    ∧ (roundTrip fresh sess).settings.subtitle_style
        = sess.settings.subtitle_style.or fresh.settings.subtitle_style
    ∧ (roundTrip fresh sess).settings.leonardo_motion
        = sess.settings.leonardo_motion.or fresh.settings.leonardo_motion
    ∧ (roundTrip fresh sess).settings.motion_strength
        = sess.settings.motion_strength.or fresh.settings.motion_strength
    ∧ (roundTrip fresh sess).settings.topic = fresh.settings.topic
    ∧ (roundTrip fresh sess).settings.target_platforms
        = fresh.settings.target_platforms
    ∧ (roundTrip fresh sess).settings.voice_profile
        = fresh.settings.voice_profile
    ∧ (roundTrip fresh sess).settings.category = fresh.settings.category :=
  ⟨rfl, rfl, rfl, rfl, rfl, rfl, rfl, rfl, rfl, rfl, rfl, rfl, rfl, rfl,
   rfl, rfl, rfl, rfl, rfl, rfl, rfl⟩

end TikTok
